import Mathlib

/- Shallow embedding of the squaremind coordination engine
   (github.com/square-mind/squaremind), covering the reputation model,
   the reputation registry, the task market, the consensus engine,
   the gossip bus, the agent state machine and identity creation.
   Go float64 arithmetic is embedded as exact rational arithmetic;
   wall-clock time is passed explicitly (elapsed days, elapsed
   durations, submission-time stamps) instead of being read from a
   global clock. -/

namespace Squaremind

/-! Reputation (pkg/agent reputation, src/unnamed/part_009) -/

/-- Mirror of agent.Reputation: four axes plus the cached overall,
task counters and the daily decay rate. The lastActive timestamp is
handled by passing elapsed days to applyDecay explicitly. -/
structure Reputation where
  overall : ℚ
  reliability : ℚ
  quality : ℚ
  cooperation : ℚ
  honesty : ℚ
  tasksCompleted : ℕ
  tasksFailed : ℕ
  decayRate : ℚ
deriving DecidableEq, Repr

/-- Mirror of NewReputation: every axis starts at 50.0, decay rate 0.01. -/
def Reputation.new : Reputation :=
  { overall := 50, reliability := 50, quality := 50, cooperation := 50,
    honesty := 50, tasksCompleted := 0, tasksFailed := 0, decayRate := 1/100 }

/-- Mirror of Reputation.recalculateOverall: overall becomes the mean of
the four axes. -/
def Reputation.recalculateOverall (r : Reputation) : Reputation :=
  { r with overall := (r.reliability + r.quality + r.cooperation + r.honesty) / 4 }

/-- Mirror of Reputation.RecordSuccess (q is the task quality in [0,1]):
quality and reliability move by exponential averages, the counter is
bumped, and overall is recomputed. -/
def Reputation.recordSuccess (r : Reputation) (q : ℚ) : Reputation :=
  Reputation.recalculateOverall
    { r with
      tasksCompleted := r.tasksCompleted + 1
      quality := r.quality * (9/10) + q * 100 * (1/10)
      reliability := r.reliability * (95/100) + 100 * (5/100) }

/-- Mirror of Reputation.RecordFailure: reliability takes a 10 percent
penalty, the counter is bumped, and overall is recomputed. -/
def Reputation.recordFailure (r : Reputation) : Reputation :=
  Reputation.recalculateOverall
    { r with
      tasksFailed := r.tasksFailed + 1
      reliability := r.reliability * (9/10) }

/-- Mirror of the peer-rating update inside
ReputationRegistry.RecordPeerRating (reputation.go lines 150-156):
cooperation moves by an exponential average weighted by the rater
(weight = raterOverall/100), then overall is recomputed inline. -/
def Reputation.peerRatingUpdate (r : Reputation) (rating weight : ℚ) : Reputation :=
  Reputation.recalculateOverall
    { r with cooperation := r.cooperation * (9/10) + rating * 100 * (1/10) * weight }

/-- Mirror of Reputation.ApplyDecay with the elapsed days since
lastActive passed explicitly: when more than one day has elapsed,
overall is scaled by 1 - decayRate*days floored at 0.5; otherwise the
reputation is untouched. Only overall changes; the four axes are kept. -/
def Reputation.applyDecay (r : Reputation) (daysSinceActive : ℚ) : Reputation :=
  if daysSinceActive > 1 then
    let decayFactor := 1 - r.decayRate * daysSinceActive
    let decayFactor := if decayFactor < 1/2 then 1/2 else decayFactor
    { r with overall := r.overall * decayFactor }
  else r

/-! Capabilities (pkg/identity/capabilities.go) -/

/-- Mirror of CapabilitySet.MatchScore. The capability set is embedded
as a lookup from type tag to proficiency (CapabilitySet.Get). An empty
required list scores 1.0; with no matched tag the score is 0.0; else
score = coverage times the average proficiency over the matched tags. -/
def matchScore (caps : String → Option ℚ) (required : List String) : ℚ :=
  if required.isEmpty then 1
  else
    let profs := required.filterMap caps
    if profs.isEmpty then 0
    else
      let coverage : ℚ := (profs.length : ℚ) / (required.length : ℚ)
      let avgProficiency : ℚ := profs.sum / (profs.length : ℚ)
      coverage * avgProficiency

/-! Agent state machine (pkg/agent/agent.go) -/

/-- Mirror of agent.AgentState. -/
inductive AgentState where
  | initializing
  | idle
  | working
  | paused
  | terminated
deriving DecidableEq, Repr

/-- Error kinds of the spec taxonomy that the claims mention. -/
inductive AgentError where
  | invalidState
deriving DecidableEq, Repr

/-- Mirror of Agent.Pause acting on the state field: the state moves to
paused when it is idle and is left untouched otherwise. The Go method
returns nothing. -/
def Agent.pause (s : AgentState) : AgentState :=
  if s = AgentState.idle then AgentState.paused else s

/-- The observable outcome of calling Pause, with its (absent) error
channel made explicit: the Go method has no error return, so every call
returns normally with the updated state and no error. -/
def Agent.pauseAsExcept (s : AgentState) : Except AgentError AgentState :=
  Except.ok (Agent.pause s)

/-- Modelled from the spec: the spec error taxonomy lists invalidState
for a pause on a non-idle agent, so the spec-side pause fails with
invalidState unless the state is idle. Used only to compare against the
behaviour of the source. -/
def Agent.pauseSpec (s : AgentState) : Except AgentError AgentState :=
  if s = AgentState.idle then Except.ok AgentState.paused
  else Except.error AgentError.invalidState

/-! Task market (pkg/coordination task market, src/unnamed/part_008) -/

/-- Mirror of coordination.Bid. Timestamps are the values stamped by
SubmitBid, abstracted as naturals. -/
structure MBid where
  agentSID : String
  taskID : String
  capabilityScore : ℚ
  reputationStake : ℚ
  estimatedTime : ℚ
  timestamp : ℕ
deriving DecidableEq, Repr

/-- Mirror of coordination.TaskAssignment. -/
structure TaskAssignment where
  taskID : String
  agentSID : String
  bid : MBid
deriving DecidableEq, Repr

/-- Market error kinds (ErrNoBids, ErrMarketClosed). -/
inductive MarketError where
  | noBids
  | marketClosed
deriving DecidableEq, Repr

/-- The task fields that drive the market: id, required capability tags
and complexity. -/
structure MTask where
  id : String
  required : List String
  complexity : String
deriving DecidableEq, Repr

/-- Mirror of estimateTime: a base time per complexity (in minutes; Go
uses time.Duration, any fixed unit works) divided by the capability
score. -/
def estimateTime (complexity : String) (capabilityScore : ℚ) : ℚ :=
  let baseTime : ℚ :=
    if complexity = "low" then 1
    else if complexity = "medium" then 5
    else if complexity = "high" then 30
    else 1
  baseTime / capabilityScore

/-- The composite score computed inside selectBestBid for one bid:
capability 40 percent, registry reputation 40 percent (default 50.0
when the agent has no registry entry), stake 20 percent. The registry
is embedded as the lookup ReputationRegistry.Get restricted to the
overall field. -/
def bidScore (reg : String → Option ℚ) (b : MBid) : ℚ :=
  b.capabilityScore * (4/10) + ((reg b.agentSID).getD 50) / 100 * (4/10)
    + b.reputationStake / 100 * (2/10)

/-- The winner among a non-empty collection of bids. The source sorts
the scored bids with sort.Slice and the strict comparison
scored[i].score > scored[j].score and takes scored[0], which is
guaranteed only to be some bid of maximal composite score: sort.Slice
is unstable above the 12-element insertion-sort cutoff of Go, so the
order among equal scores is not specified in general. This embedding
resolves ties to the first bid in submission order, which coincides
with the source below the cutoff (all traces exercised here); the
claim theorems only use the order-independent conclusions, membership
and score-maximality, which hold for scored[0] however the sort
orders ties. -/
def pickBest (reg : String → Option ℚ) : MBid → List MBid → MBid
  | best, [] => best
  | best, b :: rest =>
    if bidScore reg b > bidScore reg best then pickBest reg b rest
    else pickBest reg best rest

/-- Mirror of TaskMarket.selectBestBid on the bid bucket of one task:
noBids on an empty bucket, otherwise the winning bid wrapped in a
TaskAssignment. -/
def selectBestBid (taskID : String) (bids : List MBid)
    (reg : String → Option ℚ) : Except MarketError TaskAssignment :=
  match bids with
  | [] => Except.error MarketError.noBids
  | b :: rest =>
    let winner := pickBest reg b rest
    Except.ok { taskID := taskID, agentSID := winner.agentSID, bid := winner }

/-- The agent fields the market reads when synthesising bids: state,
capability lookup and the overall reputation carried by the agent. -/
structure MAgent where
  state : AgentState
  caps : String → Option ℚ
  repOverall : ℚ

/-- The bid-generation loop of TaskMarket.AssignTask: every idle agent
whose match score strictly exceeds 0.5 submits a bid staking 10 percent
of its overall reputation; SubmitBid stamps the k-th submitted bid with
the clock value stamp k. The agents list order stands for the Go map
iteration order, which is unspecified. -/
def synthBids (task : MTask) (stamp : ℕ → ℕ) :
    List (String × MAgent) → ℕ → List MBid
  | [], _ => []
  | (sid, a) :: rest, k =>
    let score := matchScore a.caps task.required
    if a.state = AgentState.idle ∧ score > 1/2 then
      { agentSID := sid, taskID := task.id, capabilityScore := score,
        reputationStake := a.repOverall * (1/10),
        estimatedTime := estimateTime task.complexity score,
        timestamp := stamp k } :: synthBids task stamp rest (k + 1)
    else synthBids task stamp rest k

/-- Mirror of TaskMarket.AssignTask: list the task (rejected when the
market is closed; listing opens a fresh empty bid bucket), synthesise
the bids from the idle qualifying agents, then select the best bid. -/
def assignTask (closed : Bool) (task : MTask) (agents : List (String × MAgent))
    (reg : String → Option ℚ) (stamp : ℕ → ℕ) :
    Except MarketError TaskAssignment :=
  if closed then Except.error MarketError.marketClosed
  else selectBestBid task.id (synthBids task stamp agents 0) reg

/-! Identity creation (pkg/identity/sid.go) -/

/-- Mirror of the metadata part of identity.SquaremindIdentity. The key
material is outside the embedding; the claims concern the generation
field. -/
structure IdentityM where
  sid : String
  name : String
  parentSID : String
  generation : ℕ
deriving DecidableEq, Repr

/-- Mirror of NewSquaremindIdentity with the fresh uuid passed in:
generation is 0 for an empty parentSID and literally 1 otherwise (the
source comment reads: Would look up the generation of the parent in a
real impl). -/
def newSquaremindIdentity (sid name parentSID : String) : IdentityM :=
  { sid := sid, name := name, parentSID := parentSID,
    generation := if parentSID = "" then 0 else 1 }

/-! Consensus engine (pkg/coordination, consensus engine) -/

/-- The result field of a ConsensusRound. -/
inductive CResult where
  | pending
  | accepted
  | rejected
  | timedOut
deriving DecidableEq, Repr

/-- Mirror of coordination.ConsensusRound: the votes map (voter SID to
accept flag), the threshold and timeout frozen at round creation, and
the cached result. Elapsed wall-clock time since StartedAt is passed to
checkConsensus explicitly. -/
structure CRound where
  votes : List (String × Bool)
  threshold : ℚ
  timeLimit : ℚ
  result : CResult
deriving DecidableEq, Repr

/-- The vote count required by CheckConsensus:
int(float64(totalVoters) * threshold), clamped below by 1. The Go int
conversion truncates toward zero; for a non-negative product that is
the floor, and for a negative product both the truncation and the
floor fall below the clamp, so max 1 of the floor is exact for every
input. -/
def requiredVotes (totalVoters : ℤ) (threshold : ℚ) : ℤ :=
  max 1 ⌊(totalVoters : ℚ) * threshold⌋

/-- The accept tally of CheckConsensus. -/
def countAccepts (votes : List (String × Bool)) : ℕ :=
  (votes.filter (fun v => v.2)).length

/-- Mirror of ConsensusEngine.CheckConsensus on one round: a cached
terminal result is returned as is; an expired round transitions to
timeout; else the round is accepted when the accept tally reaches the
required count, rejected when no reachable outcome can (accepts plus
the outstanding voters fall short of the required count), and left
pending otherwise. Returns the (reached, result) pair together with
the updated round. -/
def checkConsensus (r : CRound) (totalVoters : ℤ) (elapsed : ℚ) :
    (Bool × CResult) × CRound :=
  if r.result ≠ CResult.pending then
    (((r.result = CResult.accepted : Bool), r.result), r)
  else if elapsed > r.timeLimit then
    ((false, CResult.timedOut), { r with result := CResult.timedOut })
  else
    let accepts : ℤ := countAccepts r.votes
    let required := requiredVotes totalVoters r.threshold
    if accepts ≥ required then
      ((true, CResult.accepted), { r with result := CResult.accepted })
    else if accepts + (totalVoters - r.votes.length) < required then
      ((false, CResult.rejected), { r with result := CResult.rejected })
    else
      ((false, CResult.pending), r)

/-! Reputation registry (pkg/coordination/reputation.go) -/

/-- Mirror of coordination.ReputationEvent (the timestamp is outside
the embedding). -/
structure RepEvent where
  agentSID : String
  type : String
  delta : ℚ
  reason : String
deriving DecidableEq, Repr

/-- Mirror of coordination.ReputationRegistry: the scores map and the
per-agent event history, both embedded as lookups. -/
structure Registry where
  scores : String → Option Reputation
  history : String → List RepEvent

/-- Mirror of NewReputationRegistry: empty maps. -/
def Registry.empty : Registry :=
  { scores := fun _ => none, history := fun _ => [] }

/-- Mirror of ReputationRegistry.Register: install the reputation and
an empty history for the agent. -/
def Registry.register (reg : Registry) (sid : String) (rep : Reputation) :
    Registry :=
  { scores := fun s => if s = sid then some rep else reg.scores s,
    history := fun s => if s = sid then [] else reg.history s }

/-- Mirror of ReputationRegistry.RecordTaskSuccess: unknown agents are
ignored; else the reputation is updated, the event appended, and the
history truncated to its most recent 100 entries when it exceeds 100. -/
def Registry.recordTaskSuccess (reg : Registry) (sid : String) (q : ℚ) :
    Registry :=
  match reg.scores sid with
  | none => reg
  | some rep =>
    let rep2 := rep.recordSuccess q
    let ev : RepEvent :=
      { agentSID := sid, type := "task_success", delta := rep2.overall - rep.overall,
        reason := "Task completed successfully" }
    let h := reg.history sid ++ [ev]
    let h := if h.length > 100 then h.drop (h.length - 100) else h
    { scores := fun s => if s = sid then some rep2 else reg.scores s,
      history := fun s => if s = sid then h else reg.history s }

/-- Mirror of ReputationRegistry.RecordTaskFailure: unknown agents are
ignored; else the reputation is updated and the event appended. Unlike
RecordTaskSuccess, the source applies no truncation here. -/
def Registry.recordTaskFailure (reg : Registry) (sid : String) : Registry :=
  match reg.scores sid with
  | none => reg
  | some rep =>
    let rep2 := rep.recordFailure
    let ev : RepEvent :=
      { agentSID := sid, type := "task_failure", delta := rep2.overall - rep.overall,
        reason := "Task failed" }
    { scores := fun s => if s = sid then some rep2 else reg.scores s,
      history := fun s => if s = sid then reg.history s ++ [ev] else reg.history s }

/-! Gossip bus (pkg/coordination/gossip.go) -/

/-- Mirror of coordination.Message: id (abstracted as a natural), type
tag, sender SID and remaining hops. The payload and timestamp play no
role in the claims. -/
structure GMsg where
  id : ℕ
  mtype : String
  fromSID : String
  ttl : ℤ
deriving DecidableEq, Repr

/-- The gossip state: the peer set, the fanout, the seen id set (in
insertion order), the bounded message channel (FIFO), and the dispatch
log. The log records one entry per message that passes the dedup gate
of handleMessage, i.e. per point where every registered handler for
the message type is invoked once. -/
structure GState where
  peers : List String
  fanout : ℕ
  seen : List ℕ
  queue : List GMsg
  log : List ℕ
deriving DecidableEq, Repr

/-- Mirror of NewGossipProtocol with a given peer set: fanout 3, empty
seen set and channel. -/
def gossipInit (peers : List String) : GState :=
  { peers := peers, fanout := 3, seen := [], queue := [], log := [] }

/-- One send on the msgChan channel of capacity 1000: drop-on-full. -/
def enqueue (s : GState) (m : GMsg) : GState :=
  if s.queue.length < 1000 then { s with queue := s.queue ++ [m] } else s

/-- Mirror of GossipProtocol.Broadcast: a zero TTL is replaced by the
default 10 hops, then the message is enqueued drop-on-full. Fresh id
assignment is left to the trace. -/
def gossipBroadcast (s : GState) (m : GMsg) : GState :=
  enqueue s { m with ttl := if m.ttl = 0 then 10 else m.ttl }

/-- Mirror of GossipProtocol.forward: the peers other than the sender
are the candidates; the message is re-queued once per selected peer,
all candidates when they number at most fanout and a random subset of
size fanout otherwise. Every copy carries the same content, so only
the count of sends matters here. -/
def gossipForward (s : GState) (m : GMsg) : GState :=
  let candidates := s.peers.filter (fun p => p ≠ m.fromSID)
  let n := if candidates.length ≤ s.fanout then candidates.length else s.fanout
  (List.range n).foldl (fun st _ => enqueue st m) s

/-- Mirror of GossipProtocol.handleMessage on the next queued message:
a seen id is dropped; a fresh id is marked seen, dispatched to the
handlers (logged), and forwarded with a decremented TTL when the TTL
is positive. -/
def gossipDeliver (s : GState) : GState :=
  match s.queue with
  | [] => s
  | m :: rest =>
    let s1 : GState := { s with queue := rest }
    if m.id ∈ s1.seen then s1
    else
      let s2 : GState := { s1 with seen := s1.seen ++ [m.id], log := s1.log ++ [m.id] }
      if m.ttl > 0 then gossipForward s2 { m with ttl := m.ttl - 1 } else s2

/-- Mirror of GossipProtocol.cleanup: the whole seen set is reset once
it exceeds 10000 entries. -/
def gossipCleanup (s : GState) : GState :=
  if s.seen.length > 10000 then { s with seen := [] } else s

/-- The events of a gossip execution: a Broadcast call, one iteration
of the processMessages drain loop, and one cleanup tick of the gossip
maintenance loop. An execution is an arbitrary interleaving. -/
inductive GEvent where
  | broadcast (m : GMsg)
  | deliver
  | cleanup
deriving DecidableEq, Repr

/-- One execution step. -/
def gstep (s : GState) : GEvent → GState
  | GEvent.broadcast m => gossipBroadcast s m
  | GEvent.deliver => gossipDeliver s
  | GEvent.cleanup => gossipCleanup s

/-- Run an execution trace from a state. -/
def grun (s : GState) (events : List GEvent) : GState :=
  events.foldl gstep s

/-! Concrete scenario data used by witnesses and counterexamples. -/

/-- A reputation with the decay rate 0.1 used by the decay scenarios
(all axes at the initial 50.0). -/
def decayRep : Reputation := { Reputation.new with decayRate := 1/10 }

/-- Scenario agent A1: idle, code.write proficiency 0.8. -/
def scenA1 : MAgent :=
  { state := AgentState.idle,
    caps := fun t => if t = "code.write" then some (8/10) else none,
    repOverall := 50 }

/-- Scenario agent A2: idle, code.review proficiency 0.7. -/
def scenA2 : MAgent :=
  { state := AgentState.idle,
    caps := fun t => if t = "code.review" then some (7/10) else none,
    repOverall := 50 }

/-- Scenario agent A3: idle, security proficiency 0.9. -/
def scenA3 : MAgent :=
  { state := AgentState.idle,
    caps := fun t => if t = "security" then some (9/10) else none,
    repOverall := 50 }

/-- The scenario task requiring [security, code.write]. -/
def scenTask : MTask := { id := "t", required := ["security", "code.write"], complexity := "medium" }

/-! Theorems -/

/-- In [0,100] bounds for the four reputation axes. -/
def axesInRange (r : Reputation) : Prop :=
  0 ≤ r.reliability ∧ r.reliability ≤ 100 ∧ 0 ≤ r.quality ∧ r.quality ≤ 100 ∧
  0 ≤ r.cooperation ∧ r.cooperation ≤ 100 ∧ 0 ≤ r.honesty ∧ r.honesty ≤ 100

/-- The overall score is the arithmetic mean of the four axes. -/
def overallIsMean (r : Reputation) : Prop :=
  r.overall = (r.reliability + r.quality + r.cooperation + r.honesty) / 4

/-- C5: applying decay when strictly more than one day has elapsed
multiplies overall by max(0.5, 1 - decayRate*days); applying decay
within one day leaves the reputation unchanged. -/
theorem C5_applyDecay (r : Reputation) (days : ℚ) :
    (1 < days →
      Reputation.applyDecay r days =
        { r with overall := r.overall * max (1/2) (1 - r.decayRate * days) }) ∧
    (days ≤ 1 → Reputation.applyDecay r days = r) := by
  constructor
  · intro h
    rw [Reputation.applyDecay, if_pos h]
    rcases lt_or_le (1 - r.decayRate * days) (1/2) with h2 | h2
    · simp only [if_pos h2, max_eq_left (le_of_lt h2)]
    · simp only [if_neg (not_lt.mpr h2), max_eq_right h2]
  · intro h
    rw [Reputation.applyDecay, if_neg (not_lt.mpr h)]

/-- C5 witness: with decay rate 0.1 and 3 elapsed days the factor is
0.7 and the overall 50 becomes 35. -/
theorem C5_applyDecay_witness :
    (1 : ℚ) < 3 ∧
    Reputation.applyDecay decayRep 3 =
      { decayRep with overall := decayRep.overall * max (1/2) (1 - decayRep.decayRate * 3) } ∧
    (Reputation.applyDecay decayRep 3).overall = 35 := by
  have h := (C5_applyDecay decayRep 3).1 (by norm_num)
  refine ⟨by norm_num, h, ?_⟩
  rw [h]
  norm_num [decayRep, Reputation.new]

/-- C3 counterexample: after ApplyDecay the overall score is no longer
the mean of the four axes: starting from all axes at 50 with decay rate
0.1 and 3 elapsed days, overall becomes 35 while the mean of the
untouched axes stays 50. -/
theorem C3_decay_mean_counterexample :
    ¬ overallIsMean (Reputation.applyDecay decayRep 3) := by
  norm_num [overallIsMean, Reputation.applyDecay, decayRep, Reputation.new]

/-- C3 amended: after RecordSuccess, RecordFailure and the peer-rating
update, overall is the mean of the four axes and lies in [0,100]; after
ApplyDecay overall still lies in [0,100] (the factor is in [1/2, 1])
but is only the scaled previous overall, not recomputed from the axes. -/
theorem C3_reputation_amended (r : Reputation) (q rating weight days : ℚ)
    (hr : axesInRange r) (hov : 0 ≤ r.overall ∧ r.overall ≤ 100)
    (hq : 0 ≤ q ∧ q ≤ 1) (hrat : 0 ≤ rating ∧ rating ≤ 1)
    (hw : 0 ≤ weight ∧ weight ≤ 1) (hd : 0 ≤ r.decayRate) :
    (overallIsMean (r.recordSuccess q) ∧
      0 ≤ (r.recordSuccess q).overall ∧ (r.recordSuccess q).overall ≤ 100) ∧
    (overallIsMean r.recordFailure ∧
      0 ≤ r.recordFailure.overall ∧ r.recordFailure.overall ≤ 100) ∧
    (overallIsMean (r.peerRatingUpdate rating weight) ∧
      0 ≤ (r.peerRatingUpdate rating weight).overall ∧
      (r.peerRatingUpdate rating weight).overall ≤ 100) ∧
    (0 ≤ (r.applyDecay days).overall ∧ (r.applyDecay days).overall ≤ 100) := by
  obtain ⟨hr1, hr2, hq1, hq2, hc1, hc2, hh1, hh2⟩ := hr
  have hrw : 0 ≤ rating * weight := mul_nonneg hrat.1 hw.1
  have hrw2 : rating * weight ≤ 1 :=
    mul_le_one₀ hrat.2 hw.1 hw.2
  refine ⟨⟨rfl, ?_, ?_⟩, ⟨rfl, ?_, ?_⟩, ⟨rfl, ?_, ?_⟩, ?_⟩
  · simp only [Reputation.recordSuccess, Reputation.recalculateOverall]
    nlinarith
  · simp only [Reputation.recordSuccess, Reputation.recalculateOverall]
    nlinarith
  · simp only [Reputation.recordFailure, Reputation.recalculateOverall]
    nlinarith
  · simp only [Reputation.recordFailure, Reputation.recalculateOverall]
    nlinarith
  · simp only [Reputation.peerRatingUpdate, Reputation.recalculateOverall]
    nlinarith
  · simp only [Reputation.peerRatingUpdate, Reputation.recalculateOverall]
    nlinarith
  · rw [Reputation.applyDecay]
    rcases lt_or_le (1 : ℚ) days with hdays | hdays
    · rw [if_pos hdays]
      dsimp only
      have hdd : 0 ≤ r.decayRate * days := mul_nonneg hd (by linarith)
      rcases lt_or_le (1 - r.decayRate * days) (1/2) with h2 | h2
      · rw [if_pos h2]
        constructor
        · linarith [hov.1]
        · nlinarith [hov.1, hov.2]
      · rw [if_neg (not_lt.mpr h2)]
        constructor
        · nlinarith [hov.1]
        · nlinarith [hov.1, hov.2]
    · rw [if_neg (not_lt.mpr hdays)]
      exact hov

/-- C3 witness: the amended statement applied to the fresh reputation
with q = 1, rating = 1, weight = 1/2 and 3 elapsed days. -/
theorem C3_reputation_amended_witness :
    axesInRange Reputation.new ∧
    ((overallIsMean (Reputation.new.recordSuccess 1) ∧
      0 ≤ (Reputation.new.recordSuccess 1).overall ∧
      (Reputation.new.recordSuccess 1).overall ≤ 100) ∧
    (overallIsMean Reputation.new.recordFailure ∧
      0 ≤ Reputation.new.recordFailure.overall ∧
      Reputation.new.recordFailure.overall ≤ 100) ∧
    (overallIsMean (Reputation.new.peerRatingUpdate 1 (1/2)) ∧
      0 ≤ (Reputation.new.peerRatingUpdate 1 (1/2)).overall ∧
      (Reputation.new.peerRatingUpdate 1 (1/2)).overall ≤ 100) ∧
    (0 ≤ (Reputation.new.applyDecay 3).overall ∧
      (Reputation.new.applyDecay 3).overall ≤ 100)) :=
  ⟨by norm_num [axesInRange, Reputation.new],
    C3_reputation_amended Reputation.new 1 1 (1/2) 3
      (by norm_num [axesInRange, Reputation.new])
      (by norm_num [Reputation.new]) (by norm_num) (by norm_num)
      (by norm_num) (by norm_num [Reputation.new])⟩

/-- C4 counterexample: in the three-agent scenario the match scores
are 0.4, 0, 0.45, all at or below the strict 0.5 bid threshold, so no
bid is synthesised and AssignTask fails with noBids instead of
assigning the task to A3 as the claim states. -/
theorem C4_scenario_counterexample :
    assignTask false scenTask [("A1", scenA1), ("A2", scenA2), ("A3", scenA3)]
      (fun _ => none) (fun _ => 0) = Except.error MarketError.noBids := by
  simp +decide [assignTask, synthBids, selectBestBid, matchScore,
    scenA1, scenA2, scenA3, scenTask]
  norm_num

/-- C4 amended: the match scores are 0.4 for A1, 0.45 for A3 and 0 for
A2 as claimed, but since no score strictly exceeds the 0.5 threshold no
agent bids (in particular A1 does not), and the assignment fails with
noBids rather than assigning A3. -/
theorem C4_scenario_amended :
    matchScore scenA1.caps scenTask.required = 2/5 ∧
    matchScore scenA3.caps scenTask.required = 9/20 ∧
    matchScore scenA2.caps scenTask.required = 0 ∧
    synthBids scenTask (fun _ => 0) [("A1", scenA1), ("A2", scenA2), ("A3", scenA3)] 0 = [] ∧
    assignTask false scenTask [("A1", scenA1), ("A2", scenA2), ("A3", scenA3)]
      (fun _ => none) (fun _ => 0) = Except.error MarketError.noBids := by
  refine ⟨?_, ?_, ?_, ?_, ?_⟩ <;>
    · simp +decide [assignTask, synthBids, selectBestBid, matchScore,
        scenA1, scenA2, scenA3, scenTask]
      try norm_num

/-- C8 counterexample: calling Pause on a working agent returns
normally with the state unchanged; no invalidState error is produced,
contrary to the claim. -/
theorem C8_pause_error_counterexample :
    Agent.pauseAsExcept AgentState.working = Except.ok AgentState.working ∧
    Agent.pauseSpec AgentState.working = Except.error AgentError.invalidState := by
  constructor <;> rfl

/-- C8 amended: Pause on a non-idle agent is a silent no-op: the state
is left unchanged and no error (in particular no invalidState) is ever
reported; the idle-to-paused transition happens exactly from idle. -/
theorem C8_pause_amended (s : AgentState) :
    (s ≠ AgentState.idle → Agent.pause s = s) ∧
    (Agent.pause s = AgentState.paused → s = AgentState.idle ∨ s = AgentState.paused) ∧
    Agent.pauseAsExcept s ≠ Except.error AgentError.invalidState ∧
    Agent.pause AgentState.idle = AgentState.paused := by
  cases s <;> simp [Agent.pause, Agent.pauseAsExcept]

/-- C8 witness: the amended statement at the working state. -/
theorem C8_pause_amended_witness :
    AgentState.working ≠ AgentState.idle ∧
    Agent.pause AgentState.working = AgentState.working :=
  ⟨by simp, (C8_pause_amended AgentState.working).1 (by simp)⟩

/-- Identity chain used for the generation claim: a root, its child and
a grandchild. -/
def identityRoot : IdentityM := newSquaremindIdentity "sid-root" "Root" ""

/-- Child of the root identity. -/
def identityChild : IdentityM := newSquaremindIdentity "sid-child" "Child" identityRoot.sid

/-- Grandchild: created with the child (a generation-1 identity) as
parent. -/
def identityGrandchild : IdentityM :=
  newSquaremindIdentity "sid-grandchild" "Grandchild" identityChild.sid

/-- C9: an identity without parent gets generation 0 and a child of the
root gets generation 1, but the source hardcodes generation 1 for every
identity with a parent, so a child of a generation-1 identity gets
generation 1, not 2 as the claim (and the source comment about the real
implementation) requires. -/
theorem C9_generation_stub :
    identityRoot.generation = 0 ∧
    identityChild.generation = 1 ∧
    identityGrandchild.generation = 1 ∧
    identityGrandchild.generation ≠ identityChild.generation + 1 := by
  refine ⟨rfl, ?_, ?_, ?_⟩ <;>
    simp +decide [identityRoot, identityChild, identityGrandchild, newSquaremindIdentity]

/-- The bid pickBest returns is among the candidates. -/
lemma pickBest_mem (reg : String → Option ℚ) (b : MBid) (l : List MBid) :
    pickBest reg b l ∈ b :: l := by
  induction l generalizing b with
  | nil => simp [pickBest]
  | cons x xs ih =>
    rw [pickBest]
    split
    · exact List.mem_cons_of_mem b (ih x)
    · rcases List.mem_cons.mp (ih b) with h | h
      · rw [h]; exact List.mem_cons_self b _
      · exact List.mem_cons_of_mem b (List.mem_cons_of_mem x h)

/-- The bid pickBest returns carries a maximal composite score among
the candidates. -/
lemma pickBest_max (reg : String → Option ℚ) (b : MBid) (l : List MBid) :
    ∀ x ∈ b :: l, bidScore reg x ≤ bidScore reg (pickBest reg b l) := by
  induction l generalizing b with
  | nil =>
    intro x hx
    rw [pickBest]
    rcases List.mem_cons.mp hx with h | h
    · rw [h]
    · cases h
  | cons y ys ih =>
    intro x hx
    rw [pickBest]
    split
    · rename_i hgt
      rcases List.mem_cons.mp hx with h | h2
      · rw [h]
        calc bidScore reg b ≤ bidScore reg y := le_of_lt hgt
          _ ≤ bidScore reg (pickBest reg y ys) := ih y y (List.mem_cons_self y ys)
      · exact ih y x h2
    · rename_i hle
      rcases List.mem_cons.mp hx with h | h2
      · rw [h]
        exact ih b b (List.mem_cons_self b ys)
      · rcases List.mem_cons.mp h2 with h3 | h3
        · rw [h3]
          have hb := ih b b (List.mem_cons_self b ys)
          have hyb : bidScore reg y ≤ bidScore reg b := not_lt.mp hle
          linarith
        · exact ih b x (List.mem_cons_of_mem b h3)

/-- Every bid the AssignTask loop synthesises has a capability score
strictly above the 0.5 threshold. -/
lemma synthBids_cap (task : MTask) (stamp : ℕ → ℕ) (agents : List (String × MAgent)) :
    ∀ (k : ℕ) (b : MBid), b ∈ synthBids task stamp agents k →
      1/2 < b.capabilityScore := by
  induction agents with
  | nil => intro k b h; simp [synthBids] at h
  | cons p rest ih =>
    intro k b h
    obtain ⟨sid, a⟩ := p
    rw [synthBids] at h
    split_ifs at h with hc
    · rcases List.mem_cons.mp h with rfl | h2
      · exact hc.2
      · exact ih (k + 1) b h2
    · exact ih k b h

/-- C1 amended: whenever AssignTask returns a winner, the winning
capability score strictly exceeds 0.5 and the winning composite score
(0.4 capability + 0.4 reputation/100 + 0.2 stake/100) is maximal among
the synthesised bids. The source applies no timestamp or agent-id
tie-break among equally scored bids, so only these order-independent
guarantees hold. -/
theorem C1_assignment_amended (closed : Bool) (task : MTask)
    (agents : List (String × MAgent)) (reg : String → Option ℚ) (stamp : ℕ → ℕ)
    (asg : TaskAssignment)
    (h : assignTask closed task agents reg stamp = Except.ok asg) :
    1/2 < asg.bid.capabilityScore ∧
    asg.bid ∈ synthBids task stamp agents 0 ∧
    asg.agentSID = asg.bid.agentSID ∧
    ∀ b ∈ synthBids task stamp agents 0, bidScore reg b ≤ bidScore reg asg.bid := by
  cases closed with
  | true => simp [assignTask] at h
  | false =>
    rw [assignTask] at h
    simp only [Bool.false_eq_true, if_false] at h
    cases hb : synthBids task stamp agents 0 with
    | nil => rw [hb] at h; simp [selectBestBid] at h
    | cons x xs =>
      rw [hb] at h
      simp only [selectBestBid, Except.ok.injEq] at h
      subst h
      refine ⟨?_, ?_, rfl, ?_⟩
      · exact synthBids_cap task stamp agents 0 _ (by rw [hb]; exact pickBest_mem reg x xs)
      · exact pickBest_mem reg x xs
      · exact pickBest_max reg x xs

/-- Agent used by the C1 witness: idle with security proficiency 1. -/
def c1wAgent : MAgent :=
  { state := AgentState.idle,
    caps := fun t => if t = "security" then some 1 else none,
    repOverall := 50 }

/-- Task used by the C1 witness. -/
def c1wTask : MTask := { id := "t", required := ["security"], complexity := "medium" }

/-- The single bid of the C1 witness run. -/
def c1wBid : MBid :=
  { agentSID := "a", taskID := "t", capabilityScore := 1, reputationStake := 5,
    estimatedTime := 5, timestamp := 0 }

/-- The assignment of the C1 witness run. -/
def c1wAsg : TaskAssignment := { taskID := "t", agentSID := "a", bid := c1wBid }

/-- C1 witness: a one-agent market run where the amended statement is
instantiated on the returned assignment. -/
theorem C1_assignment_amended_witness :
    assignTask false c1wTask [("a", c1wAgent)] (fun _ => none) (fun _ => 0)
        = Except.ok c1wAsg ∧
    (1/2 < c1wAsg.bid.capabilityScore ∧
      c1wAsg.bid ∈ synthBids c1wTask (fun _ => 0) [("a", c1wAgent)] 0 ∧
      c1wAsg.agentSID = c1wAsg.bid.agentSID ∧
      ∀ b ∈ synthBids c1wTask (fun _ => 0) [("a", c1wAgent)] 0,
        bidScore (fun _ => none) b ≤ bidScore (fun _ => none) c1wAsg.bid) := by
  have h : assignTask false c1wTask [("a", c1wAgent)] (fun _ => none) (fun _ => 0)
      = Except.ok c1wAsg := by
    simp +decide [assignTask, synthBids, selectBestBid, matchScore,
      estimateTime, c1wAgent, c1wTask, c1wBid, c1wAsg]
    norm_num [pickBest]
  exact ⟨h, C1_assignment_amended false c1wTask [("a", c1wAgent)]
    (fun _ => none) (fun _ => 0) c1wAsg h⟩

/-- The tie scenario agent: idle, security proficiency 0.9, overall 50. -/
def tieAgent : MAgent :=
  { state := AgentState.idle,
    caps := fun t => if t = "security" then some (9/10) else none,
    repOverall := 50 }

/-- The tie scenario task. -/
def tieTask : MTask := { id := "t", required := ["security"], complexity := "medium" }

/-- The bid of agent a in the tie scenario. -/
def tieBidA : MBid :=
  { agentSID := "a", taskID := "t", capabilityScore := 9/10, reputationStake := 5,
    estimatedTime := estimateTime "medium" (9/10), timestamp := 0 }

/-- The bid of agent b in the tie scenario. -/
def tieBidB : MBid :=
  { agentSID := "b", taskID := "t", capabilityScore := 9/10, reputationStake := 5,
    estimatedTime := estimateTime "medium" (9/10), timestamp := 0 }

/-- C1 counterexample: two identical idle agents named b and a, visited
in that map order, submit bids with equal composite scores and equal
timestamps; the code awards the task to b, the first submitted bid,
whereas the claimed tie-break (earlier timestamp, then lexicographically
smallest agent id) demands the winner a. -/
theorem C1_tiebreak_counterexample :
    assignTask false tieTask [("b", tieAgent), ("a", tieAgent)]
        (fun _ => none) (fun _ => 0)
      = Except.ok { taskID := "t", agentSID := "b", bid := tieBidB } ∧
    synthBids tieTask (fun _ => 0) [("b", tieAgent), ("a", tieAgent)] 0
      = [tieBidB, tieBidA] ∧
    bidScore (fun _ => none) tieBidA = bidScore (fun _ => none) tieBidB ∧
    tieBidA.timestamp = tieBidB.timestamp ∧
    tieBidA.agentSID < tieBidB.agentSID := by
  refine ⟨?_, ?_, ?_, ?_, ?_⟩
  · simp +decide [assignTask, synthBids, selectBestBid, matchScore,
      estimateTime, tieAgent, tieTask, tieBidA, tieBidB]
    norm_num [pickBest, bidScore]
  · simp +decide [synthBids, matchScore, estimateTime, tieAgent, tieTask,
      tieBidA, tieBidB]
    norm_num
  · simp [bidScore, tieBidA, tieBidB]
  · rfl
  · show tieBidA.agentSID < tieBidB.agentSID
    simp [tieBidA, tieBidB]
    decide

/-- C10: a bid whose agent has no entry in the reputation registry is
neither dropped nor fatal: selectBestBid still returns a winner and the
absent entry is scored with the default overall 50.0, so the winning
composite score dominates the composite of the registry-less bid
computed with 50 in place of the missing reputation. -/
theorem C10_default_reputation (taskID : String) (bids : List MBid)
    (reg : String → Option ℚ) (b : MBid)
    (hb : b ∈ bids) (hreg : reg b.agentSID = none) :
    ∃ asg, selectBestBid taskID bids reg = Except.ok asg ∧
      bidScore reg b ≤ bidScore reg asg.bid ∧
      bidScore reg b = b.capabilityScore * (4/10) + (50 : ℚ)/100 * (4/10)
        + b.reputationStake/100 * (2/10) := by
  cases bids with
  | nil => cases hb
  | cons x xs =>
    refine ⟨TaskAssignment.mk taskID (pickBest reg x xs).agentSID
      (pickBest reg x xs), ?_, ?_, ?_⟩
    · simp [selectBestBid]
    · exact pickBest_max reg x xs b hb
    · rw [bidScore, hreg]
      simp

/-- The bid of the C10 witness, on an agent absent from the registry. -/
def c10Bid : MBid :=
  { agentSID := "a", taskID := "t", capabilityScore := 1, reputationStake := 0,
    estimatedTime := 5, timestamp := 0 }

/-- C10 witness: the statement applied to a one-bid bucket over the
empty registry. -/
theorem C10_default_reputation_witness :
    c10Bid ∈ [c10Bid] ∧
    (∃ asg, selectBestBid "t" [c10Bid] (fun _ => none) = Except.ok asg ∧
      bidScore (fun _ => none) c10Bid ≤ bidScore (fun _ => none) asg.bid ∧
      bidScore (fun _ => none) c10Bid
        = c10Bid.capabilityScore * (4/10) + (50 : ℚ)/100 * (4/10)
          + c10Bid.reputationStake/100 * (2/10)) :=
  ⟨List.mem_singleton_self c10Bid,
    C10_default_reputation "t" [c10Bid] (fun _ => none) c10Bid
      (List.mem_singleton_self c10Bid) rfl⟩

/-- The overlap round: one accept and two reject votes recorded while
only one voter is counted. -/
def cexRound : CRound :=
  { votes := [("a", true), ("b", false), ("c", false)], threshold := 1,
    timeLimit := 30, result := CResult.pending }

/-- C2 counterexample: on a pending, non-timed-out round with one
accept and two reject votes and totalVoters = 1, the early-rejection
quantity accepts + (totalVoters - votes) = -1 is strictly below the
required count 1, so the claim demands rejected; the code checks the
accept threshold first (1 accept meets required = 1) and returns
accepted. -/
theorem C2_reject_iff_counterexample :
    cexRound.result = CResult.pending ∧
    (0 : ℚ) ≤ cexRound.timeLimit ∧
    (countAccepts cexRound.votes : ℤ) + (1 - (cexRound.votes.length : ℤ))
      < requiredVotes 1 cexRound.threshold ∧
    (checkConsensus cexRound 1 0).1.2 = CResult.accepted := by
  have hreq : requiredVotes 1 cexRound.threshold = 1 := by
    simp [requiredVotes, cexRound]
  have hcount : countAccepts cexRound.votes = 1 := rfl
  refine ⟨rfl, by norm_num [cexRound], ?_, ?_⟩
  · rw [hreq, hcount]
    norm_num [cexRound]
  · rw [checkConsensus]
    rw [if_neg (by simp [cexRound])]
    rw [if_neg (by norm_num [cexRound])]
    dsimp only
    rw [if_pos (by rw [hreq, hcount]; norm_num)]

/-- C2 amended: on a pending, non-timed-out round whose recorded votes
do not exceed totalVoters, CheckConsensus returns accepted exactly when
the accept tally reaches required = max(1, floor(totalVoters*threshold)),
rejected exactly when accepts + (totalVoters - votes) falls strictly
below required, and pending otherwise. (Without the recorded-votes
bound the accepted check, which the code runs first, can fire together
with the rejection inequality.) -/
theorem C2_checkConsensus_amended (r : CRound) (totalVoters : ℤ) (elapsed : ℚ)
    (hpend : r.result = CResult.pending) (htime : elapsed ≤ r.timeLimit)
    (hvot : (r.votes.length : ℤ) ≤ totalVoters) :
    ((checkConsensus r totalVoters elapsed).1.2 = CResult.accepted ↔
      requiredVotes totalVoters r.threshold ≤ (countAccepts r.votes : ℤ)) ∧
    ((checkConsensus r totalVoters elapsed).1.2 = CResult.rejected ↔
      (countAccepts r.votes : ℤ) + (totalVoters - (r.votes.length : ℤ))
        < requiredVotes totalVoters r.threshold) ∧
    ((checkConsensus r totalVoters elapsed).1.2 = CResult.pending ↔
      ((countAccepts r.votes : ℤ) < requiredVotes totalVoters r.threshold ∧
        requiredVotes totalVoters r.threshold ≤
          (countAccepts r.votes : ℤ) + (totalVoters - (r.votes.length : ℤ)))) := by
  have hacc : countAccepts r.votes ≤ r.votes.length :=
    List.length_filter_le _ _
  have hacc2 : (countAccepts r.votes : ℤ) ≤ (r.votes.length : ℤ) := by
    exact_mod_cast hacc
  rw [checkConsensus]
  rw [if_neg (by simp [hpend])]
  rw [if_neg (not_lt.mpr htime)]
  dsimp only
  by_cases h1 : (countAccepts r.votes : ℤ) ≥ requiredVotes totalVoters r.threshold
  · rw [if_pos h1]
    refine ⟨?_, ?_, ?_⟩ <;> simp <;> omega
  · rw [if_neg h1]
    by_cases h2 : (countAccepts r.votes : ℤ) + (totalVoters - (r.votes.length : ℤ))
        < requiredVotes totalVoters r.threshold
    · rw [if_pos h2]
      refine ⟨?_, ?_, ?_⟩ <;> simp <;> omega
    · rw [if_neg h2]
      refine ⟨?_, ?_, ?_⟩ <;> simp <;> omega

/-- The round of the C2 witness: two accepts at threshold 2/3 with
three voters, required = 2. -/
def witRound : CRound :=
  { votes := [("a", true), ("b", true)], threshold := 2/3,
    timeLimit := 30, result := CResult.pending }

/-- C2 witness: the amended statement on the concrete two-accept round
with three voters. -/
theorem C2_checkConsensus_amended_witness :
    witRound.result = CResult.pending ∧
    (0 : ℚ) ≤ witRound.timeLimit ∧
    (witRound.votes.length : ℤ) ≤ 3 ∧
    (((checkConsensus witRound 3 0).1.2 = CResult.accepted ↔
      requiredVotes 3 witRound.threshold ≤ (countAccepts witRound.votes : ℤ)) ∧
    ((checkConsensus witRound 3 0).1.2 = CResult.rejected ↔
      (countAccepts witRound.votes : ℤ) + (3 - (witRound.votes.length : ℤ))
        < requiredVotes 3 witRound.threshold) ∧
    ((checkConsensus witRound 3 0).1.2 = CResult.pending ↔
      ((countAccepts witRound.votes : ℤ) < requiredVotes 3 witRound.threshold ∧
        requiredVotes 3 witRound.threshold ≤
          (countAccepts witRound.votes : ℤ) + (3 - (witRound.votes.length : ℤ))))) := by
  have h := C2_checkConsensus_amended witRound 3 0 rfl
    (by norm_num [witRound]) (by norm_num [witRound])
  exact ⟨rfl, by norm_num [witRound], by norm_num [witRound], h⟩

/-- Iterating RecordTaskFailure on a registered agent keeps the agent
registered and grows its history by exactly one event per call: the
failure path applies no truncation. -/
lemma recordTaskFailure_iter_length (sid : String) :
    ∀ (n : ℕ) (reg : Registry), (∃ rep, reg.scores sid = some rep) →
      (∃ rep2, ((fun g => Registry.recordTaskFailure g sid)^[n] reg).scores sid = some rep2) ∧
      (((fun g => Registry.recordTaskFailure g sid)^[n] reg).history sid).length
        = (reg.history sid).length + n := by
  intro n
  induction n with
  | zero => intro reg h; simpa using h
  | succ n ih =>
    intro reg h
    rw [Function.iterate_succ_apply]
    obtain ⟨rep, hrep⟩ := h
    have hstep1 : (Registry.recordTaskFailure reg sid).scores sid
        = some rep.recordFailure := by
      simp [Registry.recordTaskFailure, hrep]
    have hstep2 : ((Registry.recordTaskFailure reg sid).history sid).length
        = (reg.history sid).length + 1 := by
      simp [Registry.recordTaskFailure, hrep]
    obtain ⟨h1, h2⟩ := ih (Registry.recordTaskFailure reg sid) ⟨_, hstep1⟩
    refine ⟨h1, ?_⟩
    rw [h2, hstep2]
    omega

/-- The registry holding one fresh agent a, used for the history-bound
claim. -/
def regBug : Registry := Registry.empty.register "a" Reputation.new

/-- C7: the per-agent history bound of 100 does not hold: registering
one agent and recording 101 task failures leaves 101 events in its
history, because only RecordTaskSuccess truncates the history while
RecordTaskFailure (like the peer-rating and decay paths) appends
without bound. -/
theorem C7_history_unbounded :
    100 < ((((fun g => Registry.recordTaskFailure g "a")^[101]) regBug).history "a").length := by
  have h := recordTaskFailure_iter_length "a" 101 regBug
    ⟨Reputation.new, by simp [regBug, Registry.register, Registry.empty]⟩
  rw [h.2]
  have hbase : (regBug.history "a").length = 0 := by
    simp [regBug, Registry.register, Registry.empty]
  omega

/-! C6: gossip deduplication. -/

/-- Enqueueing touches only the queue. -/
lemma enqueue_log_seen (s : GState) (m : GMsg) :
    (enqueue s m).log = s.log ∧ (enqueue s m).seen = s.seen := by
  rw [enqueue]; split <;> exact ⟨rfl, rfl⟩

/-- Repeated enqueueing touches only the queue. -/
lemma foldl_enqueue_log_seen (l : List ℕ) (m : GMsg) :
    ∀ s : GState, ((l.foldl (fun st _ => enqueue st m) s).log = s.log ∧
      (l.foldl (fun st _ => enqueue st m) s).seen = s.seen) := by
  induction l with
  | nil => intro s; exact ⟨rfl, rfl⟩
  | cons x xs ih =>
    intro s
    rw [List.foldl_cons]
    obtain ⟨h1, h2⟩ := ih (enqueue s m)
    obtain ⟨e1, e2⟩ := enqueue_log_seen s m
    exact ⟨h1.trans e1, h2.trans e2⟩

/-- Forwarding touches only the queue. -/
lemma gossipForward_log_seen (s : GState) (m : GMsg) :
    (gossipForward s m).log = s.log ∧ (gossipForward s m).seen = s.seen := by
  rw [gossipForward]
  exact foldl_enqueue_log_seen _ _ s

/-- Broadcasting touches only the queue. -/
lemma gossipBroadcast_log_seen (s : GState) (m : GMsg) :
    (gossipBroadcast s m).log = s.log ∧ (gossipBroadcast s m).seen = s.seen := by
  rw [gossipBroadcast]
  exact enqueue_log_seen s _

/-- The deduplication invariant: every id is dispatched at most once,
and every dispatched id is in the seen set. -/
def dedupInv (s : GState) : Prop :=
  ∀ j, s.log.count j ≤ 1 ∧ (j ∈ s.log → j ∈ s.seen)

/-- A delivery step preserves the deduplication invariant: the dedup
gate only dispatches ids not yet in the seen set and marks them seen. -/
lemma gossipDeliver_dedupInv (s : GState) (h : dedupInv s) :
    dedupInv (gossipDeliver s) := by
  rw [gossipDeliver]
  split
  · exact h
  · rename_i m rest hq
    dsimp only
    split
    · rename_i hseen
      exact fun j => h j
    · rename_i hseen
      have key : dedupInv (⟨s.peers, s.fanout, s.seen ++ [m.id], rest,
          s.log ++ [m.id]⟩ : GState) := by
        intro j
        constructor
        · rw [List.count_append]
          by_cases hj : j = m.id
          · subst hj
            have hnot : m.id ∉ s.log := fun hmem => hseen ((h m.id).2 hmem)
            rw [List.count_eq_zero_of_not_mem hnot]
            simp
          · have hz : List.count j [m.id] = 0 := by simp [hj]
            rw [hz]
            have := (h j).1
            omega
        · intro hj
          rcases List.mem_append.mp hj with hj | hj
          · exact List.mem_append_left _ ((h j).2 hj)
          · exact List.mem_append_right _ hj
      split
      · intro j
        obtain ⟨f1, f2⟩ := gossipForward_log_seen
          (⟨s.peers, s.fanout, s.seen ++ [m.id], rest, s.log ++ [m.id]⟩ : GState)
          (⟨m.id, m.mtype, m.fromSID, m.ttl - 1⟩ : GMsg)
        rw [f1, f2]
        exact key j
      · exact key

/-- Every non-cleanup step preserves the deduplication invariant. -/
lemma gstep_dedupInv (s : GState) (e : GEvent) (he : e ≠ GEvent.cleanup)
    (h : dedupInv s) : dedupInv (gstep s e) := by
  cases e with
  | broadcast m =>
    intro j
    obtain ⟨h1, h2⟩ := gossipBroadcast_log_seen s m
    rw [gstep, h1, h2]
    exact h j
  | deliver => exact gossipDeliver_dedupInv s h
  | cleanup => exact absurd rfl he

/-- Any cleanup-free execution preserves the deduplication invariant. -/
lemma grun_dedupInv (events : List GEvent) :
    ∀ s : GState, GEvent.cleanup ∉ events → dedupInv s →
      dedupInv (grun s events) := by
  induction events with
  | nil => intro s _ h; exact h
  | cons e es ih =>
    intro s hne h
    have he : e ≠ GEvent.cleanup := by
      intro heq
      exact hne (heq ▸ List.mem_cons_self e es)
    have hes : GEvent.cleanup ∉ es := fun hmem => hne (List.mem_cons_of_mem e hmem)
    rw [grun, List.foldl_cons]
    exact ih (gstep s e) hes (gstep_dedupInv s e he h)

/-- C6 amended: in any gossip execution during which the seen set is
never evicted (no cleanup tick fires), every message id passes the
dedup gate, and hence fires each registered handler, at most once. A
cleanup while the seen set holds more than 10000 ids resets the whole
set, after which a still-queued forwarded copy of an already-handled id
is dispatched again. -/
theorem C6_dedup_amended (peers : List String) (events : List GEvent)
    (hnc : GEvent.cleanup ∉ events) (i : ℕ) :
    ((grun (gossipInit peers) events).log.count i) ≤ 1 := by
  have h0 : dedupInv (gossipInit peers) := by
    intro j
    simp [gossipInit]
  exact ((grun_dedupInv events (gossipInit peers) hnc h0) i).1

/-- The message with the given id injected by the counterexample trace
(the TTL 0 is replaced by the default 10 by Broadcast). -/
def cexMsg (i : ℕ) : GMsg :=
  { id := i, mtype := "task_available", fromSID := "x", ttl := 0 }

/-- C6 witness: the amended statement on a two-event cleanup-free
trace. -/
theorem C6_dedup_amended_witness :
    GEvent.cleanup ∉ [GEvent.broadcast (cexMsg 0), GEvent.deliver] ∧
    ((grun (gossipInit ["p"]) [GEvent.broadcast (cexMsg 0), GEvent.deliver]).log.count 0) ≤ 1 :=
  ⟨by simp, C6_dedup_amended ["p"] [GEvent.broadcast (cexMsg 0), GEvent.deliver] (by simp) 0⟩

/-- A queued copy of the counterexample message carrying the given
remaining hop count. -/
def msgT (i : ℕ) (t : ℤ) : GMsg :=
  { id := i, mtype := "task_available", fromSID := "x", ttl := t }

/-- One broadcast-deliver-deliver phase of the counterexample trace:
the fresh message is handled once and its forwarded copy is dropped by
the dedup gate. -/
def cexPhase (i : ℕ) : List GEvent :=
  [GEvent.broadcast (cexMsg i), GEvent.deliver, GEvent.deliver]

/-- The gossip state after the first i phases: ids 0..i-1 seen and
dispatched once each, queue drained. -/
def cexState (i : ℕ) : GState :=
  { peers := ["p"], fanout := 3, seen := List.range i, queue := [],
    log := List.range i }

/-- Running a trace split in two runs the two halves in order. -/
lemma grun_append (s : GState) (l1 l2 : List GEvent) :
    grun s (l1 ++ l2) = grun (grun s l1) l2 := by
  rw [grun, grun, grun, List.foldl_append]

/-- Broadcasting the fresh message onto an empty queue stamps the
default TTL 10 and enqueues it. -/
lemma cex_broadcast (i : ℕ) (sn ln : List ℕ) :
    gstep (⟨["p"], 3, sn, [], ln⟩ : GState) (GEvent.broadcast (cexMsg i))
      = (⟨["p"], 3, sn, [msgT i 10], ln⟩ : GState) := by
  rw [gstep, gossipBroadcast, enqueue]
  simp [cexMsg, msgT]

/-- Delivering a queued copy whose id is not yet seen dispatches it,
marks it seen and forwards one copy (one candidate peer, fanout 3)
with the TTL decremented. -/
lemma cex_deliver_fresh (i : ℕ) (t : ℤ) (ht : 0 < t) (sn ln : List ℕ)
    (hs : i ∉ sn) :
    gossipDeliver (⟨["p"], 3, sn, [msgT i t], ln⟩ : GState)
      = (⟨["p"], 3, sn ++ [i], [msgT i (t - 1)], ln ++ [i]⟩ : GState) := by
  rw [gossipDeliver]
  simp only [msgT]
  rw [if_neg hs, if_pos ht]
  rw [gossipForward]
  simp +decide [enqueue, msgT, List.range_succ]

/-- Delivering a queued copy whose id is already seen drops it. -/
lemma cex_deliver_seen (i : ℕ) (t : ℤ) (sn ln : List ℕ) (hs : i ∈ sn) :
    gossipDeliver (⟨["p"], 3, sn, [msgT i t], ln⟩ : GState)
      = (⟨["p"], 3, sn, [], ln⟩ : GState) := by
  rw [gossipDeliver]
  simp only [msgT]
  rw [if_pos hs]

/-- One full phase moves the state from i seen ids to i+1 seen ids with
exactly one new dispatch. -/
lemma cexPhase_run (i : ℕ) : grun (cexState i) (cexPhase i) = cexState (i + 1) := by
  have h2 := cex_deliver_fresh i 10 (by norm_num) (List.range i) (List.range i)
    (by simp [List.mem_range])
  have h3 := cex_deliver_seen i (10 - 1) (List.range i ++ [i]) (List.range i ++ [i])
    (by simp)
  rw [cexPhase, grun, List.foldl_cons, List.foldl_cons, List.foldl_cons,
    List.foldl_nil, cexState, cex_broadcast i (List.range i) (List.range i)]
  simp only [gstep]
  rw [h2, h3]
  simp [cexState, List.range_succ]

/-- Running the first n phases from the initial state reaches the
n-th phase state. -/
lemma cexPhases_run (n : ℕ) :
    grun (cexState 0) ((List.range n).flatMap cexPhase) = cexState n := by
  induction n with
  | zero => rfl
  | succ n ih =>
    rw [List.range_succ, List.flatMap_append, grun_append, ih]
    simp only [List.flatMap_cons, List.flatMap_nil, List.append_nil]
    exact cexPhase_run n

/-- The full counterexample trace: 10000 fresh messages are handled
(filling the seen set past its 10000 cap), message 10000 is handled and
forwarded, a cleanup tick evicts the whole seen set, and the forwarded
copy of message 10000 is delivered again. -/
def cexTrace : List GEvent :=
  ((List.range 10000).flatMap cexPhase) ++
    [GEvent.broadcast (cexMsg 10000), GEvent.deliver, GEvent.cleanup,
      GEvent.deliver]

/-- C6 counterexample: on the counterexample trace the id 10000 passes
the dedup gate twice, so every handler registered for its type fires
twice for that message id: the deduplication is not preserved across
the periodic seen-set eviction. -/
theorem C6_dedup_counterexample :
    2 ≤ ((grun (gossipInit ["p"]) cexTrace).log.count 10000) := by
  have hinit : gossipInit ["p"] = cexState 0 := rfl
  have h2 := cex_deliver_fresh 10000 10 (by norm_num) (List.range 10000)
    (List.range 10000) (by simp [List.mem_range])
  have h4 := cex_deliver_fresh 10000 (10 - 1) (by norm_num) ([] : List ℕ)
    (List.range 10000 ++ [10000]) (by simp)
  rw [cexTrace, hinit, grun_append, cexPhases_run 10000]
  rw [grun, List.foldl_cons, List.foldl_cons, List.foldl_cons, List.foldl_cons,
    List.foldl_nil, cexState, cex_broadcast 10000 (List.range 10000) (List.range 10000)]
  simp only [gstep]
  rw [h2, gossipCleanup]
  rw [if_pos (by norm_num [List.length_append, List.length_range])]
  rw [h4]
  have hz : (List.range 10000).count 10000 = 0 :=
    List.count_eq_zero_of_not_mem (by simp [List.mem_range])
  rw [List.count_append, List.count_append, hz]
  simp

end Squaremind
